import Mathlib

/-
  Verification of async-email/async-smtp against its natural-language
  specification.

  The Rust sources are shallowly embedded: bytes are `Nat` (byte values 13,
  10 and 46 are `\r`, `\n` and `.`), strings are Lean `String`, fallible code
  returns `Option` or `Except`, and the asynchronous byte stream of the
  dialogue engine is embedded as explicit state passing over a script of
  server responses plus a trace of wire events.
-/

set_option autoImplicit false

namespace AsyncSmtp

/-! ## Data codec (src/codec.rs)

`ClientCodec` holds a single byte `escape_count`.  `encode` streams a frame
through RFC 5321 dot-stuffing.  The `_ => unreachable!()` arms of the two
`match` statements are modelled as `none`: a `none` result corresponds to a
panic of the Rust code. -/

/-- One iteration of the `match self.escape_count` statement inside the byte
loop of `ClientCodec::encode` (src/codec.rs lines 40-53).  Returns the new
value of `escape_count`; `none` models the `_ => unreachable!()` arm.
Byte 13 is `\r`, 10 is `\n`, 46 is `.`. -/
def escapeStep (esc : Nat) (b : Nat) : Option Nat :=
  match esc with
  | 0 => some (if b = 13 then 1 else 0)
  | 1 => some (if b = 10 then 2 else 0)
  | 2 => some (if b = 46 then 3 else if b = 13 then 1 else 0)
  | _ => none

/-- The non-empty-frame branch of `ClientCodec::encode`: the byte loop,
returning the final `escape_count` together with the bytes written to the
sink.  When the counter reaches 3 it is reset to 0 and an extra dot (byte 46)
is written immediately before the dot that triggered it, which is how the
source's deferred writes `frame[start..idx]`, `"."`, `frame[start..]`
concatenate. -/
def encodeBytes (esc : Nat) : List Nat → Option (Nat × List Nat)
  | [] => some (esc, [])
  | b :: rest =>
    match escapeStep esc b with
    | none => none
    | some e =>
      match encodeBytes (if e = 3 then 0 else e) rest with
      | none => none
      | some (e2, outRest) => some (e2, (if e = 3 then [46, b] else [b]) ++ outRest)

namespace ClientCodec

/-- Initial `escape_count` of `ClientCodec::new()` (the `Default` derive of a
`u8` field, src/codec.rs lines 9-19). -/
def new : Nat := 0

/-- Embedding of `ClientCodec::encode` (src/codec.rs lines 25-65): the state
is the `escape_count` before the call; the result is the `escape_count` after
the call and the bytes written to the sink.  An empty frame emits the
end-of-data terminator selected by the current state. -/
def encode (esc : Nat) (frame : List Nat) : Option (Nat × List Nat) :=
  match frame with
  | [] =>
    match esc with
    | 0 => some (0, [13, 10, 46, 13, 10])
    | 1 => some (0, [10, 46, 13, 10])
    | 2 => some (0, [46, 13, 10])
    | _ => none
  | _ => encodeBytes esc frame

end ClientCodec

/-- Data-phase bytes written by `SmtpStream::message` (src/stream.rs lines
106-124): the whole body is encoded through a freshly created codec and then
the five bytes `\r\n.\r\n` are written unconditionally. -/
def messageWire (body : List Nat) : Option (List Nat) :=
  match ClientCodec.encode ClientCodec.new body with
  | none => none
  | some (_, out) => some (out ++ [13, 10, 46, 13, 10])

/-- Terminator table of spec section 4.B as read by claim C1: the prefix
written before `.\r\n` is selected by the final line state of the body. -/
def specTerminator (esc : Nat) : List Nat :=
  match esc with
  | 0 => [13, 10, 46, 13, 10]
  | 1 => [10, 46, 13, 10]
  | _ => [46, 13, 10]

/-- Data-phase bytes as claim C1 describes them: the dot-stuffed body
followed by the terminator chosen by the final state of the codec. -/
def claimedMessageWire (body : List Nat) : Option (List Nat) :=
  match encodeBytes ClientCodec.new body with
  | none => none
  | some (esc, out) => some (out ++ specTerminator esc)

/-- Specification-level dot-stuffing: a lookahead rewriting that inserts one
dot before every `\r\n.` occurrence recognised by the codec's state machine.
A carriage return not followed by a line feed also consumes the following
byte, exactly as the state machine does (its state 1 only tests for `\n`). -/
def stuffSpec : List Nat → List Nat
  | 13 :: 10 :: 46 :: rest => 13 :: 10 :: 46 :: 46 :: stuffSpec rest
  | 13 :: 10 :: rest => 13 :: 10 :: stuffSpec rest
  | 13 :: b :: rest => 13 :: b :: stuffSpec rest
  | b :: rest => b :: stuffSpec rest
  | [] => []

lemma encodeBytes_state2_of_head_ne_dot (b : Nat) (rest : List Nat)
    (h : b ≠ 46) :
    encodeBytes 2 (b :: rest) = encodeBytes 0 (b :: rest) := by
  simp [encodeBytes, escapeStep, h]

lemma encodeBytes_crlf (l : List Nat) (e2 : Nat) (out : List Nat)
    (h : encodeBytes 2 l = some (e2, out)) :
    encodeBytes 0 (13 :: 10 :: l) = some (e2, 13 :: 10 :: out) := by
  simp [encodeBytes, escapeStep, h]

/-- The byte loop started on a fresh codec computes exactly the lookahead
rewriting `stuffSpec`, and ends in a state below 3. -/
lemma encodeBytes_zero_eq_stuffSpec :
    ∀ l : List Nat, ∃ e, e < 3 ∧ encodeBytes 0 l = some (e, stuffSpec l) := by
  intro l
  induction l using stuffSpec.induct with
  | case1 rest ih =>
    obtain ⟨e, he, hrec⟩ := ih
    exact ⟨e, he, by simp [encodeBytes, escapeStep, stuffSpec, hrec]⟩
  | case2 rest h46 ih =>
    rcases rest with _ | ⟨b, rest⟩
    · exact ⟨2, by norm_num, by simp [encodeBytes, escapeStep, stuffSpec]⟩
    · have hb : b ≠ 46 := fun hb => h46 rest (by simp [hb])
      obtain ⟨e, he, hrec⟩ := ih
      refine ⟨e, he, ?_⟩
      have hspec : stuffSpec (13 :: 10 :: b :: rest) = 13 :: 10 :: stuffSpec (b :: rest) := by
        simp [stuffSpec, hb]
      have h2 : encodeBytes 2 (b :: rest) = some (e, stuffSpec (b :: rest)) := by
        rw [encodeBytes_state2_of_head_ne_dot b rest hb]
        exact hrec
      rw [hspec]
      exact encodeBytes_crlf _ _ _ h2
  | case3 b rest h1 h2 ih =>
    have hb : b ≠ 10 := fun h => h2 h
    obtain ⟨e, he, hrec⟩ := ih
    refine ⟨e, he, ?_⟩
    have hspec : stuffSpec (13 :: b :: rest) = 13 :: b :: stuffSpec rest := by
      simp [stuffSpec, hb]
    rw [hspec]
    simp [encodeBytes, escapeStep, hb, hrec]
  | case4 b rest h1 h2 h3 ih =>
    by_cases hb : b = 13
    · rcases rest with _ | ⟨c, cs⟩
      · exact ⟨1, by norm_num, by simp [hb, encodeBytes, escapeStep, stuffSpec]⟩
      · exact absurd rfl (fun h => h3 c cs hb h)
    · obtain ⟨e, he, hrec⟩ := ih
      refine ⟨e, he, ?_⟩
      have hspec : stuffSpec (b :: rest) = b :: stuffSpec rest := by
        simp [stuffSpec, hb]
      rw [hspec]
      simp [encodeBytes, escapeStep, hb, hrec]
  | case5 => exact ⟨0, by norm_num, by simp [encodeBytes, stuffSpec]⟩

/-- Invariant of the byte loop: from any state below 3 it never reaches the
`unreachable!()` arm and ends in a state below 3. -/
lemma encodeBytes_inv :
    ∀ (c : List Nat) (esc : Nat), esc < 3 →
      ∃ e out, encodeBytes esc c = some (e, out) ∧ e < 3 := by
  intro c
  induction c with
  | nil => exact fun esc h => ⟨esc, [], rfl, h⟩
  | cons b rest ih =>
    intro esc hesc
    interval_cases esc
    · by_cases hb : b = 13
      · obtain ⟨e, out, heq, he⟩ := ih 1 (by norm_num)
        exact ⟨e, [b] ++ out, by simp [encodeBytes, escapeStep, hb, heq], he⟩
      · obtain ⟨e, out, heq, he⟩ := ih 0 (by norm_num)
        exact ⟨e, [b] ++ out, by simp [encodeBytes, escapeStep, hb, heq], he⟩
    · by_cases hb : b = 10
      · obtain ⟨e, out, heq, he⟩ := ih 2 (by norm_num)
        exact ⟨e, [b] ++ out, by simp [encodeBytes, escapeStep, hb, heq], he⟩
      · obtain ⟨e, out, heq, he⟩ := ih 0 (by norm_num)
        exact ⟨e, [b] ++ out, by simp [encodeBytes, escapeStep, hb, heq], he⟩
    · by_cases hb : b = 46
      · obtain ⟨e, out, heq, he⟩ := ih 0 (by norm_num)
        exact ⟨e, [46, b] ++ out, by simp [encodeBytes, escapeStep, hb, heq], he⟩
      · by_cases hb13 : b = 13
        · obtain ⟨e, out, heq, he⟩ := ih 1 (by norm_num)
          exact ⟨e, [b] ++ out, by simp [encodeBytes, escapeStep, hb, hb13, heq], he⟩
        · obtain ⟨e, out, heq, he⟩ := ih 0 (by norm_num)
          exact ⟨e, [b] ++ out, by simp [encodeBytes, escapeStep, hb, hb13, heq], he⟩

/-- Invariant of a whole `encode` call (either branch). -/
lemma encode_inv (esc : Nat) (h : esc < 3) (c : List Nat) :
    ∃ e out, ClientCodec.encode esc c = some (e, out) ∧ e < 3 := by
  rcases c with _ | ⟨b, rest⟩
  · interval_cases esc
    · exact ⟨0, _, rfl, by norm_num⟩
    · exact ⟨0, _, rfl, by norm_num⟩
    · exact ⟨0, _, rfl, by norm_num⟩
  · exact encodeBytes_inv (b :: rest) esc h

/-- Sequence of `encode` calls with arbitrary chunks, threading the state,
concatenating the written bytes (`none` propagates a panic). -/
def encodeChunks (esc : Nat) : List (List Nat) → Option (Nat × List Nat)
  | [] => some (esc, [])
  | c :: cs =>
    match ClientCodec.encode esc c with
    | none => none
    | some (e, out) =>
      match encodeChunks e cs with
      | none => none
      | some (e2, out2) => some (e2, out ++ out2)

/-- Claim C9 (confirmed): starting from `ClientCodec::new()`, for every
sequence of `encode` calls with arbitrary byte chunks the `escape_count`
stays in `{0, 1, 2}` after every call (and hence whenever a byte is
inspected, since an inspection at a larger state would surface as `none`):
the `_ => unreachable!()` arms are never executed and `encode` never
panics. -/
theorem c9_escape_count_invariant_no_panic (chunks : List (List Nat)) :
    ∃ e out, encodeChunks ClientCodec.new chunks = some (e, out) ∧ e < 3 := by
  suffices h : ∀ (cs : List (List Nat)) (esc : Nat), esc < 3 →
      ∃ e out, encodeChunks esc cs = some (e, out) ∧ e < 3 from
    h chunks ClientCodec.new (by norm_num [ClientCodec.new])
  intro cs
  induction cs with
  | nil => exact fun esc h => ⟨esc, [], rfl, h⟩
  | cons c rest ih =>
    intro esc hesc
    obtain ⟨e, out, heq, he⟩ := encode_inv esc hesc c
    obtain ⟨e2, out2, heq2, he2⟩ := ih e he
    exact ⟨e2, out ++ out2, by simp [encodeChunks, heq, heq2], he2⟩

/-- Claim C1 counterexample: for the body `hello\r\n` of Scenario 1 the
engine writes `hello\r\n\r\n.\r\n` on the wire, not the claimed
`hello\r\n.\r\n`: the terminator is not chosen by the final line state. -/
theorem c1_terminator_counterexample :
    messageWire [104, 101, 108, 108, 111, 13, 10]
      = some [104, 101, 108, 108, 111, 13, 10, 13, 10, 46, 13, 10] ∧
    claimedMessageWire [104, 101, 108, 108, 111, 13, 10]
      = some [104, 101, 108, 108, 111, 13, 10, 46, 13, 10] ∧
    messageWire [104, 101, 108, 108, 111, 13, 10]
      ≠ claimedMessageWire [104, 101, 108, 108, 111, 13, 10] :=
  ⟨by decide, by decide, by decide⟩

/-- Claim C1 as amended: for every non-empty body the data phase writes the
dot-stuffed encoding of the body followed by the fixed five-byte terminator
`\r\n.\r\n`, regardless of whether the body already ends with CRLF. -/
theorem c1_data_phase_amended (body : List Nat) (h : body ≠ []) :
    messageWire body = some (stuffSpec body ++ [13, 10, 46, 13, 10]) := by
  obtain ⟨e, _, heq⟩ := encodeBytes_zero_eq_stuffSpec body
  rcases body with _ | ⟨b, rest⟩
  · exact absurd rfl h
  · simp [messageWire, ClientCodec.encode, ClientCodec.new, heq]

/-- Witness for the amended claim C1 at the body `a\r\n`. -/
theorem c1_data_phase_amended_witness :
    ([97, 13, 10] : List Nat) ≠ [] ∧
      messageWire [97, 13, 10] = some (stuffSpec [97, 13, 10] ++ [13, 10, 46, 13, 10]) :=
  ⟨by decide, c1_data_phase_amended [97, 13, 10] (by decide)⟩

/-- Claim C5 counterexample: a fresh codec does not stuff a leading dot; the
body `.x` is emitted unchanged, so the output does not begin with `..`. -/
theorem c5_leading_dot_counterexample :
    ClientCodec.encode ClientCodec.new [46, 120] = some (0, [46, 120]) ∧
    ([46, 120] : List Nat).take 2 ≠ [46, 46] :=
  ⟨by decide, by decide⟩

/-- Claim C5 as amended: a freshly created codec starts in the mid-line state
0, not the line-start state 2, so a body whose first byte is `.` is emitted
with that dot unstuffed; stuffing happens only after a CRLF inside the
body. -/
theorem c5_fresh_codec_amended (rest : List Nat) :
    ∃ e, e < 3 ∧
      ClientCodec.encode ClientCodec.new (46 :: rest) = some (e, 46 :: stuffSpec rest) := by
  obtain ⟨e, he, heq⟩ := encodeBytes_zero_eq_stuffSpec rest
  exact ⟨e, he, by simp [ClientCodec.encode, ClientCodec.new, encodeBytes, escapeStep, heq]⟩

/-! ## Email addresses and the MAIL command (src/types.rs, src/commands.rs) -/

/-- Rust `char::is_ascii`. -/
def isAsciiChar (c : Char) : Bool := c.toNat ≤ 127

/-- Rust `char::is_ascii_control`: `U+0000`..`U+001F` and `U+007F`. -/
def isAsciiControl (c : Char) : Bool := c.toNat ≤ 31 || c.toNat = 127

/-- Rust `char::is_ascii_whitespace`: space, tab, line feed, form feed,
carriage return. -/
def isAsciiWhitespace (c : Char) : Bool :=
  c = ' ' || c = '\t' || c = '\n' || c.toNat = 12 || c = '\r'

/-- Email address newtype (src/types.rs lines 17-19). -/
structure EmailAddress where
  addr : String
deriving DecidableEq, Repr

/-- Embedding of `EmailAddress::new` (src/types.rs lines 23-33): rejects any
character that is non-ASCII, an ASCII control character, ASCII whitespace,
`<` or `>`. -/
def EmailAddress.new (address : String) : Except String EmailAddress :=
  if address.toList.any (fun c =>
      !isAsciiChar c || isAsciiControl c || isAsciiWhitespace c || c = '<' || c = '>') then
    .error "invalid email address"
  else
    .ok ⟨address⟩

/-- Values of the `BODY` MAIL parameter (smtp/extension.rs lines 261-266). -/
inductive MailBodyParameter
  | sevenBit
  | eightBitMime
deriving DecidableEq, Repr

/-- MAIL FROM extension parameters (smtp/extension.rs lines 221-235). -/
inductive MailParameter
  | body (v : MailBodyParameter)
  | size (n : Nat)
  | smtpUtfEight
  | other (keyword : String) (value : Option String)
deriving DecidableEq, Repr

/-- Modelled from the spec: the `XText` helper of `smtp/util.rs` (not under
src/) escapes bytes outside `!`..`~` and the bytes `=` and `+` as `+XX`
uppercase hex. -/
def xtext (s : String) : String :=
  s.toList.foldl
    (fun acc c =>
      if c < '!' || c > '~' || c = '=' || c = '+' then
        acc ++ "+" ++ String.singleton (Nat.digitChar (c.toNat / 16)).toUpper
          ++ String.singleton (Nat.digitChar (c.toNat % 16)).toUpper
      else acc.push c)
    ""

/-- Wire text of a `BODY` value (smtp/extension.rs lines 268-275). -/
def MailBodyParameter.display : MailBodyParameter → String
  | .sevenBit => "7BIT"
  | .eightBitMime => "8BITMIME"

/-- Wire text of a MAIL parameter (smtp/extension.rs lines 237-253). -/
def MailParameter.display : MailParameter → String
  | .body v => "BODY=" ++ v.display
  | .size n => "SIZE=" ++ toString n
  | .smtpUtfEight => "SMTPUTF8"
  | .other k (some v) => k ++ "=" ++ xtext v
  | .other k none => k

/-- The MAIL command value (src/commands.rs lines 42-46). -/
structure MailCommand where
  sender : Option EmailAddress
  parameters : List MailParameter
deriving DecidableEq, Repr

/-- Embedding of `MailCommand::new` (src/commands.rs lines 62-67). -/
def MailCommand.new (sender : Option EmailAddress) (parameters : List MailParameter) :
    MailCommand :=
  ⟨sender, parameters⟩

/-- Wire form of MAIL (its `Display` impl, src/commands.rs lines 48-60): the
sender, or the empty string for `None`, inside angle brackets, then each
parameter preceded by one space, then CRLF. -/
def MailCommand.display (m : MailCommand) : String :=
  "MAIL FROM:<" ++ (match m.sender with | some a => a.addr | none => "") ++ ">"
    ++ String.join (m.parameters.map (fun p => " " ++ p.display)) ++ "\r\n"

/-- Claim C10 (confirmed): the empty string is accepted by
`EmailAddress::new`, and `MAIL FROM:` with that empty sender serializes to
exactly `MAIL FROM:<>\r\n`, byte-identical to the command with no sender at
all. -/
theorem c10_empty_sender_equals_null_reverse_path :
    EmailAddress.new "" = .ok ⟨""⟩ ∧
    (MailCommand.new (some ⟨""⟩) []).display = "MAIL FROM:<>\r\n" ∧
    (MailCommand.new (some ⟨""⟩) []).display = (MailCommand.new none []).display :=
  ⟨rfl, by decide, by decide⟩

/-! ## Replies (the current `src/response.rs` is not among the source files;
its data model is modelled from the spec, sections 3 and 4.A) -/

/-- Modelled from the spec: severity is the first digit of a reply code. -/
inductive Severity
  | positiveCompletion
  | positiveIntermediate
  | transientNegativeCompletion
  | permanentNegativeCompletion
deriving DecidableEq, Repr

/-- First digit of the reply code. -/
def Severity.digit : Severity → Nat
  | .positiveCompletion => 2
  | .positiveIntermediate => 3
  | .transientNegativeCompletion => 4
  | .permanentNegativeCompletion => 5

/-- Modelled from the spec: category is the second digit of a reply code. -/
inductive Category
  | syn
  | information
  | connections
  | unspecified3
  | unspecified4
  | mailSystem
deriving DecidableEq, Repr

/-- Second digit of the reply code. -/
def Category.digit : Category → Nat
  | .syn => 0
  | .information => 1
  | .connections => 2
  | .unspecified3 => 3
  | .unspecified4 => 4
  | .mailSystem => 5

/-- Modelled from the spec: a reply code decomposed as severity, category
and detail digit. -/
structure Code where
  severity : Severity
  category : Category
  detail : Fin 10
deriving DecidableEq, Repr

/-- The three-digit number of a code. -/
def Code.toNat (c : Code) : Nat :=
  c.severity.digit * 100 + c.category.digit * 10 + c.detail

/-- Modelled from the spec: a reply is a code plus the ordered message
lines. -/
structure Response where
  code : Code
  message : List String
deriving DecidableEq, Repr

/-- Modelled from the spec: `is_positive` holds for the positive severity
variants (first digit 2 or 3). -/
def Response.is_positive (r : Response) : Bool :=
  match r.code.severity with
  | .positiveCompletion => true
  | .positiveIntermediate => true
  | _ => false

/-- Modelled from the spec: `has_code` compares all three digits. -/
def Response.has_code (r : Response) (n : Nat) : Bool :=
  r.code.toNat == n

/-- Tokenizer loop behind `words`: accumulates the current token in reverse
and emits it at each whitespace boundary, skipping empty tokens. -/
def wordsAux : List Char → List Char → List String
  | [], acc => if acc.isEmpty then [] else [String.mk acc.reverse]
  | c :: cs, acc =>
    if c = ' ' || c = '\t' then
      if acc.isEmpty then wordsAux cs [] else String.mk acc.reverse :: wordsAux cs []
    else wordsAux cs (c :: acc)

/-- Rust `str::split_whitespace`: the whitespace-separated tokens of a
line, with no empty tokens. -/
def words (s : String) : List String := wordsAux s.toList []

/-- Modelled from the spec: `first_word` is the first whitespace-separated
token of the first message line. -/
def Response.first_word (r : Response) : Option String :=
  r.message.head? >>= fun l => (words l).head?

/-- Error kinds of src/error.rs that the embedded operations can produce. -/
inductive Error
  | transient (r : Response)
  | permanent (r : Response)
  | responseParsing (s : String)
  | challengeParsing
  | utf8Parsing
  | client (s : String)
  | io (s : String)
deriving DecidableEq, Repr

/-- Conversion `From<Response> for Error` (src/error.rs lines 70-78). -/
def Response.toError (r : Response) : Error :=
  match r.code.severity with
  | .transientNegativeCompletion => .transient r
  | .permanentNegativeCompletion => .permanent r
  | _ => .client "Unknown error code"

/-! ## Capability model (src/smtp/extension.rs) -/

/-- Authentication mechanisms (the `authentication.rs` module is not among
the source files; the variant set is modelled from the spec, section 3). -/
inductive Mechanism
  | plain
  | login
  | xoauth2
deriving DecidableEq, Repr

/-- Supported ESMTP keywords (smtp/extension.rs lines 83-102). -/
inductive Extension
  | pipelining
  | eightBitMime
  | smtpUtfEight
  | startTls
  | authentication (m : Mechanism)
deriving DecidableEq, Repr

/-- Server information (smtp/extension.rs lines 122-131); the feature
`HashSet` is embedded as a duplicate-free list, so membership is
unchanged. -/
structure ServerInfo where
  name : String
  features : List Extension
deriving DecidableEq, Repr

/-- Embedding of `supports_feature` (smtp/extension.rs lines 203-206). -/
def ServerInfo.supports_feature (si : ServerInfo) (e : Extension) : Bool :=
  decide (e ∈ si.features)

/-- Embedding of `supports_auth_mechanism` (smtp/extension.rs lines
208-212). -/
def ServerInfo.supports_auth_mechanism (si : ServerInfo) (m : Mechanism) : Bool :=
  decide (Extension.authentication m ∈ si.features)

/-- Set-insertion into the feature list, the embedding of
`HashSet::insert`. -/
def insertFeature (l : List Extension) (e : Extension) : List Extension :=
  if e ∈ l then l else l ++ [e]

/-- One step of the `for &mechanism in &split[1..]` loop inside the `AUTH`
arm of `ServerInfo::from_response` (smtp/extension.rs lines 178-191). -/
def collectMech (fs : List Extension) (tok : String) : List Extension :=
  if tok = "PLAIN" then insertFeature fs (.authentication .plain)
  else if tok = "LOGIN" then insertFeature fs (.authentication .login)
  else if tok = "XOAUTH2" then insertFeature fs (.authentication .xoauth2)
  else fs

/-- One iteration of the line loop of `ServerInfo::from_response`
(smtp/extension.rs lines 158-195): empty lines are skipped, the first
whitespace token is compared case-sensitively, unknown tokens are dropped.
Note the source iterates over every line of the reply, including the
first. -/
def collectLine (fs : List Extension) (line : String) : List Extension :=
  if line = "" then fs
  else
    match (words line).head? with
    | none => fs
    | some tok =>
      if tok = "PIPELINING" then insertFeature fs .pipelining
      else if tok = "8BITMIME" then insertFeature fs .eightBitMime
      else if tok = "SMTPUTF8" then insertFeature fs .smtpUtfEight
      else if tok = "STARTTLS" then insertFeature fs .startTls
      else if tok = "AUTH" then (words line).tail.foldl collectMech fs
      else fs

/-- Embedding of `ServerInfo::from_response` (smtp/extension.rs lines
150-201). -/
def ServerInfo.from_response (r : Response) : Except Error ServerInfo :=
  match r.first_word with
  | none => .error (.responseParsing "Could not read server name")
  | some name => .ok ⟨name, r.message.foldl collectLine []⟩

/-- Upper-casing of a token (ASCII letters), used by claim C6's reading. -/
def upperString (s : String) : String := String.mk (s.toList.map Char.toUpper)

/-- Line loop as claim C6 reads it: only the lines after the first are
scanned, and the first token is upper-cased before comparison. -/
def collectLineClaim (fs : List Extension) (line : String) : List Extension :=
  if line = "" then fs
  else
    match ((words line).head?).map upperString with
    | none => fs
    | some tok =>
      if tok = "PIPELINING" then insertFeature fs .pipelining
      else if tok = "8BITMIME" then insertFeature fs .eightBitMime
      else if tok = "SMTPUTF8" then insertFeature fs .smtpUtfEight
      else if tok = "STARTTLS" then insertFeature fs .startTls
      else if tok = "AUTH" then (words line).tail.foldl collectMech fs
      else fs

/-- The EHLO parser as claim C6 describes it. -/
def fromResponseClaim (r : Response) : Except Error ServerInfo :=
  match r.first_word with
  | none => .error (.responseParsing "Could not read server name")
  | some name => .ok ⟨name, r.message.tail.foldl collectLineClaim []⟩

/-- Wire token of a mechanism inside an `AUTH` line. -/
def mechToken : Mechanism → String
  | .plain => "PLAIN"
  | .login => "LOGIN"
  | .xoauth2 => "XOAUTH2"

/-- Which extensions a single reply line contributes in the source's
parser: the first whitespace token selects the feature by exact comparison;
an `AUTH` line contributes the supported mechanisms among its remaining
tokens. -/
def lineSelects (line : String) (e : Extension) : Prop :=
  match e with
  | .pipelining => (words line).head? = some "PIPELINING"
  | .eightBitMime => (words line).head? = some "8BITMIME"
  | .smtpUtfEight => (words line).head? = some "SMTPUTF8"
  | .startTls => (words line).head? = some "STARTTLS"
  | .authentication m =>
      (words line).head? = some "AUTH" ∧ mechToken m ∈ (words line).tail

lemma mem_insertFeature (l : List Extension) (x e : Extension) :
    e ∈ insertFeature l x ↔ e ∈ l ∨ e = x := by
  by_cases hx : x ∈ l
  · simp only [insertFeature, if_pos hx]
    constructor
    · exact Or.inl
    · rintro (h | rfl)
      · exact h
      · exact hx
  · simp [insertFeature, if_neg hx, List.mem_append]

lemma mem_collectMech_foldl (toks : List String) :
    ∀ (fs : List Extension) (e : Extension),
      e ∈ toks.foldl collectMech fs ↔
        e ∈ fs ∨ ∃ m, e = .authentication m ∧ mechToken m ∈ toks := by
  induction toks with
  | nil => simp
  | cons t toks ih =>
    intro fs e
    rw [List.foldl_cons, ih]
    unfold collectMech
    by_cases h1 : t = "PLAIN"
    · subst h1
      simp only [reduceIte, mem_insertFeature]
      constructor
      · rintro ((h | rfl) | ⟨m, rfl, hm⟩)
        · exact Or.inl h
        · exact Or.inr ⟨.plain, rfl, by simp [mechToken]⟩
        · exact Or.inr ⟨m, rfl, by simp [hm]⟩
      · rintro (h | ⟨m, rfl, hm⟩)
        · exact Or.inl (Or.inl h)
        · rcases List.mem_cons.mp hm with hm | hm
          · cases m <;> simp_all [mechToken]
          · exact Or.inr ⟨m, rfl, hm⟩
    · by_cases h2 : t = "LOGIN"
      · subst h2
        simp only [h1, reduceIte, mem_insertFeature]
        constructor
        · rintro ((h | rfl) | ⟨m, rfl, hm⟩)
          · exact Or.inl h
          · exact Or.inr ⟨.login, rfl, by simp [mechToken]⟩
          · exact Or.inr ⟨m, rfl, by simp [hm]⟩
        · rintro (h | ⟨m, rfl, hm⟩)
          · exact Or.inl (Or.inl h)
          · rcases List.mem_cons.mp hm with hm | hm
            · cases m <;> simp_all [mechToken]
            · exact Or.inr ⟨m, rfl, hm⟩
      · by_cases h3 : t = "XOAUTH2"
        · subst h3
          simp only [h1, h2, reduceIte, mem_insertFeature]
          constructor
          · rintro ((h | rfl) | ⟨m, rfl, hm⟩)
            · exact Or.inl h
            · exact Or.inr ⟨.xoauth2, rfl, by simp [mechToken]⟩
            · exact Or.inr ⟨m, rfl, by simp [hm]⟩
          · rintro (h | ⟨m, rfl, hm⟩)
            · exact Or.inl (Or.inl h)
            · rcases List.mem_cons.mp hm with hm | hm
              · cases m <;> simp_all [mechToken]
              · exact Or.inr ⟨m, rfl, hm⟩
        · simp only [h1, h2, h3, reduceIte]
          constructor
          · rintro (h | ⟨m, rfl, hm⟩)
            · exact Or.inl h
            · exact Or.inr ⟨m, rfl, by simp [hm]⟩
          · rintro (h | ⟨m, rfl, hm⟩)
            · exact Or.inl h
            · rcases List.mem_cons.mp hm with hm | hm
              · cases m <;> simp_all [mechToken]
              · exact Or.inr ⟨m, rfl, hm⟩

lemma mem_collectLine (fs : List Extension) (line : String) (e : Extension) :
    e ∈ collectLine fs line ↔ e ∈ fs ∨ lineSelects line e := by
  by_cases hl : line = ""
  · have hw : words "" = [] := by decide
    subst hl
    simp only [collectLine, reduceIte]
    cases e <;> simp [lineSelects, hw]
  · simp only [collectLine, if_neg hl]
    cases hw : (words line).head? with
    | none => cases e <;> simp [lineSelects, hw]
    | some tok =>
      by_cases h1 : tok = "PIPELINING"
      · subst h1
        cases e <;> simp [lineSelects, hw, mem_insertFeature]
      · by_cases h2 : tok = "8BITMIME"
        · subst h2
          cases e <;> simp [lineSelects, hw, mem_insertFeature, h1]
        · by_cases h3 : tok = "SMTPUTF8"
          · subst h3
            cases e <;> simp [lineSelects, hw, mem_insertFeature, h1, h2]
          · by_cases h4 : tok = "STARTTLS"
            · subst h4
              cases e <;> simp [lineSelects, hw, mem_insertFeature, h1, h2, h3]
            · by_cases h5 : tok = "AUTH"
              · subst h5
                cases e <;>
                  simp [lineSelects, hw, mem_collectMech_foldl, h1, h2, h3, h4]
              · cases e <;> simp [lineSelects, hw, h1, h2, h3, h4, h5]

lemma mem_foldl_collectLine (lines : List String) :
    ∀ (fs : List Extension) (e : Extension),
      e ∈ lines.foldl collectLine fs ↔ e ∈ fs ∨ ∃ line ∈ lines, lineSelects line e := by
  induction lines with
  | nil => simp
  | cons l ls ih =>
    intro fs e
    rw [List.foldl_cons, ih, mem_collectLine]
    constructor
    · rintro ((h | h) | ⟨line, hline, hsel⟩)
      · exact Or.inl h
      · exact Or.inr ⟨l, List.mem_cons_self l ls, h⟩
      · exact Or.inr ⟨line, List.mem_cons_of_mem l hline, hsel⟩
    · rintro (h | ⟨line, hline, hsel⟩)
      · exact Or.inl (Or.inl h)
      · rcases List.mem_cons.mp hline with rfl | hline
        · exact Or.inl (Or.inr hsel)
        · exact Or.inr ⟨line, hline, hsel⟩

/-- Claim C6 counterexample: on a reply whose first line starts with
`STARTTLS` and whose second line is lowercase `pipelining`, the source's
parser takes the feature from the first line and ignores the lowercase
token, while the claim's reading (skip the first line, upper-case the
token) produces the opposite feature set. -/
theorem c6_first_line_case_counterexample :
    ServerInfo.from_response
        ⟨⟨.positiveCompletion, .mailSystem, 0⟩, ["STARTTLS", "pipelining"]⟩
      = .ok ⟨"STARTTLS", [.startTls]⟩ ∧
    fromResponseClaim
        ⟨⟨.positiveCompletion, .mailSystem, 0⟩, ["STARTTLS", "pipelining"]⟩
      = .ok ⟨"STARTTLS", [.pipelining]⟩ ∧
    (Except.ok (⟨"STARTTLS", [.startTls]⟩ : ServerInfo) : Except Error ServerInfo)
      ≠ .ok ⟨"STARTTLS", [.pipelining]⟩ := by
  refine ⟨rfl, rfl, fun h => ?_⟩
  exact absurd (Except.ok.inj h) (by decide)

/-- Claim C6 as amended: the server name is the first word of the first
line, but the feature set is built from every line of the reply, including
the first, with the first whitespace token compared case-sensitively (no
upper-casing); unknown tokens are dropped without error and `AUTH`
mechanisms outside PLAIN, LOGIN, XOAUTH2 are dropped individually. -/
theorem c6_from_response_amended (r : Response) (si : ServerInfo)
    (h : ServerInfo.from_response r = .ok si) :
    r.first_word = some si.name ∧
    ∀ e : Extension, e ∈ si.features ↔ ∃ line ∈ r.message, lineSelects line e := by
  unfold ServerInfo.from_response at h
  cases hfw : r.first_word with
  | none => rw [hfw] at h; cases h
  | some name =>
    rw [hfw] at h
    simp only [Except.ok.injEq] at h
    subst h
    refine ⟨rfl, fun e => ?_⟩
    rw [mem_foldl_collectLine]
    simp

/-- Witness for the amended claim C6 on the EHLO reply of the source's own
test (`me`, `AUTH PLAIN CRAM-MD5 XOAUTH2 OTHER`, `8BITMIME`, `SIZE 42`). -/
theorem c6_from_response_amended_witness :
    (⟨⟨.positiveCompletion, .unspecified4, 1⟩,
        ["me", "AUTH PLAIN CRAM-MD5 XOAUTH2 OTHER", "8BITMIME", "SIZE 42"]⟩ :
      Response).first_word
        = some (⟨"me", [.authentication .plain, .authentication .xoauth2,
            .eightBitMime]⟩ : ServerInfo).name ∧
    ∀ e : Extension,
      e ∈ (⟨"me", [.authentication .plain, .authentication .xoauth2,
            .eightBitMime]⟩ : ServerInfo).features ↔
        ∃ line ∈ ["me", "AUTH PLAIN CRAM-MD5 XOAUTH2 OTHER", "8BITMIME", "SIZE 42"],
          lineSelects line e :=
  c6_from_response_amended
    ⟨⟨.positiveCompletion, .unspecified4, 1⟩,
      ["me", "AUTH PLAIN CRAM-MD5 XOAUTH2 OTHER", "8BITMIME", "SIZE 42"]⟩
    ⟨"me", [.authentication .plain, .authentication .xoauth2, .eightBitMime]⟩
    (by rfl)

/-! ## Base64 and UTF-8 (dependencies of the AUTH challenge path) -/

/-- Value of one character of the standard base64 alphabet. -/
def b64Val (c : Char) : Option Nat :=
  if 'A' ≤ c ∧ c ≤ 'Z' then some (c.toNat - 65)
  else if 'a' ≤ c ∧ c ≤ 'z' then some (c.toNat - 97 + 26)
  else if '0' ≤ c ∧ c ≤ '9' then some (c.toNat - 48 + 52)
  else if c = '+' then some 62
  else if c = '/' then some 63
  else none

/-- Standard base64 decoding (`base64::decode` of the base64 crate): strict
four-character groups, `=` padding only in the final group. -/
def base64DecodeChars : List Char → Option (List Nat)
  | [] => some []
  | a :: b :: c :: d :: rest => do
    let va ← b64Val a
    let vb ← b64Val b
    if d = '=' then
      if rest ≠ [] then none
      else if c = '=' then some [va * 4 + vb / 16]
      else do
        let vc ← b64Val c
        some [va * 4 + vb / 16, vb % 16 * 16 + vc / 4]
    else do
      let vc ← b64Val c
      let vd ← b64Val d
      let tail ← base64DecodeChars rest
      some ((va * 4 + vb / 16) :: (vb % 16 * 16 + vc / 4) :: (vc % 4 * 64 + vd) :: tail)
  | _ => none

/-- Base64 decoding of a string. -/
def base64Decode (s : String) : Option (List Nat) := base64DecodeChars s.toList

/-- UTF-8 continuation byte. -/
def isContByte (b : Nat) : Prop := 128 ≤ b ∧ b ≤ 191

instance (b : Nat) : Decidable (isContByte b) := by
  unfold isContByte
  infer_instance

/-- UTF-8 decoding with the validity checks of Rust `String::from_utf8`
(rejects stray continuation bytes, overlong forms, surrogates and values
beyond U+10FFFF). -/
def utf8Decode : List Nat → Option (List Char)
  | [] => some []
  | b :: rest =>
    if b ≤ 127 then
      match utf8Decode rest with
      | none => none
      | some cs => some (Char.ofNat b :: cs)
    else if 194 ≤ b ∧ b ≤ 223 then
      match rest with
      | b2 :: rest2 =>
        if isContByte b2 then
          match utf8Decode rest2 with
          | none => none
          | some cs => some (Char.ofNat ((b - 192) * 64 + (b2 - 128)) :: cs)
        else none
      | [] => none
    else if 224 ≤ b ∧ b ≤ 239 then
      match rest with
      | b2 :: b3 :: rest3 =>
        if (if b = 224 then 160 ≤ b2 ∧ b2 ≤ 191
            else if b = 237 then 128 ≤ b2 ∧ b2 ≤ 159
            else isContByte b2) ∧ isContByte b3 then
          match utf8Decode rest3 with
          | none => none
          | some cs =>
            some (Char.ofNat ((b - 224) * 4096 + (b2 - 128) * 64 + (b3 - 128)) :: cs)
        else none
      | _ => none
    else if 240 ≤ b ∧ b ≤ 244 then
      match rest with
      | b2 :: b3 :: b4 :: rest4 =>
        if (if b = 240 then 144 ≤ b2 ∧ b2 ≤ 191
            else if b = 244 then 128 ≤ b2 ∧ b2 ≤ 143
            else isContByte b2) ∧ isContByte b3 ∧ isContByte b4 then
          match utf8Decode rest4 with
          | none => none
          | some cs =>
            some (Char.ofNat
              ((b - 240) * 262144 + (b2 - 128) * 4096 + (b3 - 128) * 64 + (b4 - 128)) :: cs)
        else none
      | _ => none
    else none

/-- Rust `String::from_utf8` over the byte-list embedding. -/
def stringFromUtf8 (bytes : List Nat) : Option String :=
  (utf8Decode bytes).map (fun cs => String.mk cs)

/-! ## Authentication (the `authentication.rs` module is not among the
source files; modelled from the spec, sections 3 and 4.E) -/

/-- Credentials: username and password (or token). -/
structure Credentials where
  username : String
  password : String
deriving DecidableEq, Repr

/-- Modelled from the spec: PLAIN and XOAUTH2 support an initial response;
LOGIN is challenge-driven. -/
def Mechanism.supportsInitialResponse : Mechanism → Bool
  | .plain => true
  | .login => false
  | .xoauth2 => true

/-- Modelled from the spec (section 4.E, "Mechanism response construction"):
the response string a mechanism computes from the credentials and an
optional decoded challenge.  PLAIN yields `\0user\0pass` and XOAUTH2 yields
`user=<u>\x01auth=Bearer <token>\x01\x01`; both reject an unexpected
challenge.  LOGIN answers the `Username:` challenge with the username and
any other challenge with the password (Scenario 5). -/
def Mechanism.response (m : Mechanism) (creds : Credentials) (challenge : Option String) :
    Except Error String :=
  match m with
  | .plain =>
    match challenge with
    | none => .ok ("\x00" ++ creds.username ++ "\x00" ++ creds.password)
    | some _ => .error (.client "This mechanism does not expect a challenge")
  | .login =>
    match challenge with
    | none => .error (.client "This mechanism does expect a challenge")
    | some c => .ok (if c = "Username:" then creds.username else creds.password)
  | .xoauth2 =>
    match challenge with
    | none => .ok ("user=" ++ creds.username ++ "\x01auth=Bearer " ++ creds.password ++ "\x01\x01")
    | some _ => .error (.client "This mechanism does not expect a challenge")

/-- The AUTH command value (src/commands.rs lines 198-204). -/
structure AuthCommand where
  mechanism : Mechanism
  credentials : Credentials
  challenge : Option String
  response : Option String
deriving DecidableEq, Repr

/-- Embedding of `AuthCommand::new` (src/commands.rs lines 230-248). -/
def AuthCommand.new (mechanism : Mechanism) (credentials : Credentials)
    (challenge : Option String) : Except Error AuthCommand :=
  if mechanism.supportsInitialResponse || challenge.isSome then
    match mechanism.response credentials challenge with
    | .error e => .error e
    | .ok r => .ok ⟨mechanism, credentials, challenge, some r⟩
  else .ok ⟨mechanism, credentials, challenge, none⟩

/-- Embedding of `AuthCommand::new_from_response` (src/commands.rs lines
252-277): requires a 334 reply, base64-decodes its first word, requires
valid UTF-8, and computes the mechanism response to the decoded
challenge. -/
def AuthCommand.new_from_response (mechanism : Mechanism) (credentials : Credentials)
    (r : Response) : Except Error AuthCommand :=
  if r.has_code 334 = false then .error (.responseParsing "Expecting a challenge")
  else
    match r.first_word with
    | none => .error (.responseParsing "Could not read auth challenge")
    | some encoded =>
      match base64Decode encoded with
      | none => .error .challengeParsing
      | some bytes =>
        match stringFromUtf8 bytes with
        | none => .error .utf8Parsing
        | some decoded =>
          match mechanism.response credentials (some decoded) with
          | .error e => .error e
          | .ok resp => .ok ⟨mechanism, credentials, some decoded, some resp⟩

/-! ## The dialogue engine (src/stream.rs and src/smtp_client.rs)

The byte stream is embedded as a script of parsed server replies (the
response parser `parse_response` lives in the missing `response.rs`; per the
spec, section 4.A, it turns wire bytes into `Response` values, so the script
abstracts the read side) together with a trace of wire events. -/

/-- Command values the engine writes, as written. -/
inductive Command
  | ehlo (id : String)
  | mail (m : MailCommand)
  | rcpt (rcptTo : EmailAddress)
  | data
  | quit
  | starttls
  | auth (a : AuthCommand)
deriving DecidableEq, Repr

/-- One wire event: a written command, the written data-phase bytes, or a
reply consumed from the stream. -/
inductive Event
  | wrote (c : Command)
  | wroteBody (bytes : List Nat)
  | readReply (r : Response)
deriving DecidableEq, Repr

/-- The state of `SmtpStream`: the replies the server will send next, and
the trace of everything that happened on the wire so far. -/
structure StreamState where
  script : List Response
  trace : List Event
deriving DecidableEq, Repr

/-- Embedding of `SmtpStream::send_command` (src/stream.rs lines 56-59):
writes the command, reads nothing. -/
def sendCommand (c : Command) (s : StreamState) : StreamState :=
  { s with trace := s.trace ++ [.wrote c] }

/-- Embedding of `SmtpStream::read_response` (src/stream.rs lines 74-103):
consumes the next reply; a positive reply is returned as `Ok`, a negative
one becomes the error of its severity, and an exhausted stream is an
"incomplete" io error. -/
def readResponse (s : StreamState) : Except Error Response × StreamState :=
  match s.script with
  | [] => (.error (.io "incomplete"), s)
  | r :: rest =>
    (if r.is_positive then .ok r else .error r.toError,
     ⟨rest, s.trace ++ [.readReply r]⟩)

/-- Embedding of `SmtpStream::command` (src/stream.rs lines 50-53): send
then read. -/
def command (c : Command) (s : StreamState) : Except Error Response × StreamState :=
  readResponse (sendCommand c s)

/-- Embedding of `SmtpStream::message` (src/stream.rs lines 106-124): write
the data-phase bytes (`messageWire`) and read the final reply; a `none`
from the codec would be the unreachable panic. -/
def message (body : List Nat) (s : StreamState) : Except Error Response × StreamState :=
  match messageWire body with
  | none => (.error (.client "unreachable"), s)
  | some w => readResponse { s with trace := s.trace ++ [.wroteBody w] }

/-- Simple email envelope (src/types.rs lines 62-96). -/
structure Envelope where
  forward_path : List EmailAddress
  reverse_path : Option EmailAddress
deriving DecidableEq, Repr

/-- Sendable email: envelope plus the body bytes (src/types.rs lines
152-190, with the `Message` byte source already read to its byte list as
`SmtpStream::message` does). -/
structure SendableEmail where
  envelope : Envelope
  body : List Nat
deriving DecidableEq, Repr

/-- Client configuration fields of `SmtpClient` that `send` consults
(src/smtp_client.rs lines 17-30). -/
structure SmtpClientCfg where
  smtp_utf8 : Bool
  pipelining : Bool
deriving DecidableEq, Repr

/-- The high-level transport (src/smtp_client.rs lines 92-101): server
information and client configuration.  It has no failure flag; the stream
state is passed separately. -/
structure SmtpTransport where
  server_info : ServerInfo
  client_info : SmtpClientCfg
deriving DecidableEq, Repr

/-- The MAIL parameter list computed at the top of `SmtpTransport::send`
(src/smtp_client.rs lines 199-208). -/
def mailOptions (t : SmtpTransport) : List MailParameter :=
  (if t.server_info.supports_feature .eightBitMime then
    [MailParameter.body .eightBitMime] else [])
  ++ (if t.server_info.supports_feature .smtpUtfEight && t.client_info.smtp_utf8 then
    [MailParameter.smtpUtfEight] else [])

/-- The RCPT loop of the non-pipelined branch of `send`
(src/smtp_client.rs lines 245-252): each RCPT waits for its reply. -/
def rcptLoop : List EmailAddress → StreamState → Except Error Unit × StreamState
  | [], s => (.ok (), s)
  | a :: rest, s =>
    match command (.rcpt a) s with
    | (.error e, s2) => (.error e, s2)
    | (.ok _, s2) => rcptLoop rest s2

/-- The reply-draining loop of the pipelined branch of `send`
(src/smtp_client.rs lines 234-236): `for _ in 0..sent_commands {
self.stream.read_response().await?; }` — note the `?`, which aborts the
loop on the first non-positive reply. -/
def drain : Nat → StreamState → Except Error Unit × StreamState
  | 0, s => (.ok (), s)
  | n + 1, s =>
    match readResponse s with
    | (.error e, s2) => (.error e, s2)
    | (.ok _, s2) => drain n s2

/-- Embedding of `SmtpTransport::send` (src/smtp_client.rs lines 198-270).
If PIPELINING is advertised and enabled, MAIL, all RCPTs and DATA are
written without reads and then `1 + n + 1` replies are drained; otherwise
each command waits for its reply.  Afterwards the body is streamed and the
final reply read. -/
def send (t : SmtpTransport) (email : SendableEmail) (s : StreamState) :
    Except Error Response × StreamState :=
  if t.server_info.supports_feature .pipelining && t.client_info.pipelining then
    match drain (email.envelope.forward_path.length + 2)
        (sendCommand .data
          (email.envelope.forward_path.foldl (fun st a => sendCommand (.rcpt a) st)
            (sendCommand (.mail (MailCommand.new email.envelope.reverse_path (mailOptions t)))
              s))) with
    | (.error e, s4) => (.error e, s4)
    | (.ok _, s4) => message email.body s4
  else
    match command (.mail (MailCommand.new email.envelope.reverse_path (mailOptions t))) s with
    | (.error e, s1) => (.error e, s1)
    | (.ok _, s1) =>
      match rcptLoop email.envelope.forward_path s1 with
      | (.error e, s2) => (.error e, s2)
      | (.ok _, s2) =>
        match command .data s2 with
        | (.error e, s3) => (.error e, s3)
        | (.ok _, s3) => message email.body s3

/-- The challenge loop of `SmtpTransport::auth` (src/smtp_client.rs lines
178-188), with the remaining `challenges` counter as fuel: while the reply
has code 334 the counter is decremented, the next response command is built
from the reply and sent.  Returns the final reply, the stream state and the
remaining counter value. -/
def authLoop (mechanism : Mechanism) (credentials : Credentials) :
    Nat → Response → StreamState → Except Error Response × StreamState × Nat
  | 0, r, s => (.ok r, s, 0)
  | n + 1, r, s =>
    if r.has_code 334 then
      match AuthCommand.new_from_response mechanism credentials r with
      | .error e => (.error e, s, n)
      | .ok cmd =>
        match command (.auth cmd) s with
        | (.error e, s2) => (.error e, s2, n)
        | (.ok r2, s2) => authLoop mechanism credentials n r2 s2
    else (.ok r, s, n + 1)

/-- Embedding of `SmtpTransport::auth` (src/smtp_client.rs lines 170-195):
send the initial AUTH command, run the 334 loop with `challenges = 10`, and
report `ResponseParsing "Unexpected number of challenges"` when the counter
reached 0. -/
def auth (mechanism : Mechanism) (credentials : Credentials) (s : StreamState) :
    Except Error Response × StreamState :=
  match AuthCommand.new mechanism credentials none with
  | .error e => (.error e, s)
  | .ok cmd =>
    match command (.auth cmd) s with
    | (.error e, s1) => (.error e, s1)
    | (.ok r, s1) =>
      match authLoop mechanism credentials 10 r s1 with
      | (.error e, s2, _) => (.error e, s2)
      | (.ok r2, s2, challenges) =>
        if challenges = 0 then
          (.error (.responseParsing "Unexpected number of challenges"), s2)
        else (.ok r2, s2)

lemma readResponse_trace_ext (s : StreamState) :
    ∃ tl, ((readResponse s).2).trace = s.trace ++ tl ∧
      ∀ e ∈ tl, ∀ c, e ≠ Event.wrote c := by
  cases hs : s.script with
  | nil => exact ⟨[], by simp [readResponse, hs], by simp⟩
  | cons r rest =>
    refine ⟨[.readReply r], by simp [readResponse, hs], ?_⟩
    intro e he c
    simp at he
    simp [he]

lemma command_trace_ext (c : Command) (s : StreamState) :
    ∃ tl, ((command c s).2).trace = s.trace ++ (Event.wrote c :: tl) ∧
      ∀ e ∈ tl, ∀ c2, e ≠ Event.wrote c2 := by
  obtain ⟨tl, htl, hnw⟩ := readResponse_trace_ext (sendCommand c s)
  exact ⟨tl, by simpa [sendCommand] using htl, hnw⟩

lemma drain_trace_ext : ∀ (n : Nat) (s : StreamState),
    ∃ tl, ((drain n s).2).trace = s.trace ++ tl ∧
      ∀ e ∈ tl, ∀ c, e ≠ Event.wrote c := by
  intro n
  induction n with
  | zero => exact fun s => ⟨[], by simp [drain], by simp⟩
  | succ m ih =>
    intro s
    obtain ⟨tl1, htl1, hnw1⟩ := readResponse_trace_ext s
    rcases hrr : readResponse s with ⟨res, s2⟩
    rw [hrr] at htl1
    dsimp only at htl1
    cases res with
    | error e => exact ⟨tl1, by simp [drain, hrr, htl1], hnw1⟩
    | ok r =>
      obtain ⟨tl2, htl2, hnw2⟩ := ih s2
      refine ⟨tl1 ++ tl2, ?_, ?_⟩
      · simp only [drain, hrr]
        rw [htl2, htl1, List.append_assoc]
      · intro e he c
        rcases List.mem_append.mp he with h | h
        · exact hnw1 e h c
        · exact hnw2 e h c

lemma messageWire_isSome (body : List Nat) : ∃ w, messageWire body = some w := by
  obtain ⟨e, out, heq, _⟩ := encode_inv ClientCodec.new (by norm_num [ClientCodec.new]) body
  exact ⟨out ++ [13, 10, 46, 13, 10], by simp [messageWire, heq]⟩

lemma message_trace_ext (body : List Nat) (s : StreamState) :
    ∃ tl, ((message body s).2).trace = s.trace ++ tl ∧
      ∀ e ∈ tl, ∀ c, e ≠ Event.wrote c := by
  obtain ⟨w, hw⟩ := messageWire_isSome body
  obtain ⟨tl, htl, hnw⟩ :=
    readResponse_trace_ext ⟨s.script, s.trace ++ [.wroteBody w]⟩
  refine ⟨Event.wroteBody w :: tl, ?_, ?_⟩
  · simp only [message, hw]
    simpa using htl
  · intro e he c
    rcases List.mem_cons.mp he with rfl | h
    · simp
    · exact hnw e h c

lemma rcptLoop_trace_ext : ∀ (tos : List EmailAddress) (s : StreamState),
    ∃ tl, ((rcptLoop tos s).2).trace = s.trace ++ tl := by
  intro tos
  induction tos with
  | nil => exact fun s => ⟨[], by simp [rcptLoop]⟩
  | cons a tos ih =>
    intro s
    obtain ⟨tl1, htl1, _⟩ := command_trace_ext (.rcpt a) s
    rcases hc : command (.rcpt a) s with ⟨res, s2⟩
    rw [hc] at htl1
    dsimp only at htl1
    cases res with
    | error e =>
      exact ⟨Event.wrote (.rcpt a) :: tl1, by simp [rcptLoop, hc, htl1]⟩
    | ok r =>
      obtain ⟨tl2, htl2⟩ := ih s2
      refine ⟨(Event.wrote (.rcpt a) :: tl1) ++ tl2, ?_⟩
      simp only [rcptLoop, hc]
      rw [htl2, htl1, List.append_assoc]

lemma foldl_sendRcpt (tos : List EmailAddress) : ∀ (s : StreamState),
    tos.foldl (fun st a => sendCommand (.rcpt a) st) s
      = ⟨s.script, s.trace ++ tos.map (fun a => Event.wrote (.rcpt a))⟩ := by
  induction tos with
  | nil => intro s; cases s; simp
  | cons a tos ih =>
    intro s
    rw [List.foldl_cons, ih]
    cases s
    simp [sendCommand]

/-- The drain loop consumes exactly its window when every reply in it is
positive, recording the reads in order. -/
lemma drain_all_positive (window : List Response) :
    ∀ (after : List Response) (tr : List Event),
      (∀ r ∈ window, r.is_positive = true) →
      drain window.length ⟨window ++ after, tr⟩
        = (.ok (), ⟨after, tr ++ window.map .readReply⟩) := by
  induction window with
  | nil => intro after tr _; simp [drain]
  | cons r ws ih =>
    intro after tr h
    have hr : r.is_positive = true := h r (List.mem_cons_self r ws)
    simp only [List.length_cons, List.cons_append, drain, readResponse, hr, if_true]
    simpa using ih after (tr ++ [Event.readReply r])
      (fun x hx => h x (List.mem_cons_of_mem r hx))

/-- The drain loop aborts at the first non-positive reply: it consumes the
positive prefix and that reply, returns the reply's error, and leaves the
rest of the script unread. -/
lemma drain_first_failure (pre : List Response) :
    ∀ (n : Nat) (rbad : Response) (after : List Response) (tr : List Event),
      pre.length < n →
      (∀ r ∈ pre, r.is_positive = true) →
      rbad.is_positive = false →
      drain n ⟨pre ++ rbad :: after, tr⟩
        = (.error rbad.toError, ⟨after, tr ++ (pre ++ [rbad]).map .readReply⟩) := by
  induction pre with
  | nil =>
    intro n rbad after tr hn _ hneg
    cases n with
    | zero => exact absurd hn (by simp)
    | succ m => simp [drain, readResponse, hneg]
  | cons p pre ih =>
    intro n rbad after tr hn hpre hneg
    cases n with
    | zero => exact absurd hn (by simp)
    | succ m =>
      have hp : p.is_positive = true := hpre p (List.mem_cons_self p pre)
      simp only [List.cons_append, drain, readResponse, hp, if_true]
      simpa using ih m rbad after (tr ++ [Event.readReply p])
        (by simp at hn; omega)
        (fun x hx => hpre x (List.mem_cons_of_mem p hx)) hneg

lemma traceExtends_trans {s1 s2 s3 : StreamState}
    (h1 : ∃ tl, s2.trace = s1.trace ++ tl) (h2 : ∃ tl, s3.trace = s2.trace ++ tl) :
    ∃ tl, s3.trace = s1.trace ++ tl := by
  obtain ⟨t1, h1⟩ := h1
  obtain ⟨t2, h2⟩ := h2
  exact ⟨t1 ++ t2, by rw [h2, h1, List.append_assoc]⟩

lemma message_extends (body : List Nat) (s : StreamState) :
    ∃ tl, ((message body s).2).trace = s.trace ++ tl :=
  (message_trace_ext body s).imp fun _ h => h.1

lemma drain_extends (n : Nat) (s : StreamState) :
    ∃ tl, ((drain n s).2).trace = s.trace ++ tl :=
  (drain_trace_ext n s).imp fun _ h => h.1

lemma command_extends (c : Command) (s : StreamState) :
    ∃ tl, ((command c s).2).trace = s.trace ++ tl := by
  obtain ⟨tl, h, _⟩ := command_trace_ext c s
  exact ⟨Event.wrote c :: tl, h⟩

/-- Whatever the branch and however the stream behaves, `send` begins by
writing the MAIL command built from the envelope sender and the computed
parameters. -/
lemma send_writes_mail_first (t : SmtpTransport) (email : SendableEmail) (s : StreamState) :
    ∃ rest, ((send t email s).2).trace
      = s.trace ++ Event.wrote
          (.mail (MailCommand.new email.envelope.reverse_path (mailOptions t))) :: rest := by
  have key : ∃ tl, ((send t email s).2).trace
      = (sendCommand (.mail (MailCommand.new email.envelope.reverse_path (mailOptions t)))
          s).trace ++ tl := by
    by_cases hp : (t.server_info.supports_feature .pipelining
        && t.client_info.pipelining) = true
    · unfold send
      rw [if_pos hp]
      have hfold := foldl_sendRcpt email.envelope.forward_path
        (sendCommand (.mail (MailCommand.new email.envelope.reverse_path (mailOptions t))) s)
      have hext1 : ∃ tl,
          (sendCommand .data
            (email.envelope.forward_path.foldl (fun st a => sendCommand (.rcpt a) st)
              (sendCommand (.mail (MailCommand.new email.envelope.reverse_path (mailOptions t)))
                s))).trace
          = (sendCommand (.mail (MailCommand.new email.envelope.reverse_path (mailOptions t)))
              s).trace ++ tl := by
        rw [hfold]
        exact ⟨email.envelope.forward_path.map (fun a => Event.wrote (.rcpt a))
            ++ [Event.wrote .data],
          by simp [sendCommand, List.append_assoc]⟩
      rcases hd : drain (email.envelope.forward_path.length + 2)
          (sendCommand .data
            (email.envelope.forward_path.foldl (fun st a => sendCommand (.rcpt a) st)
              (sendCommand (.mail (MailCommand.new email.envelope.reverse_path (mailOptions t)))
                s))) with ⟨res, s4⟩
      have hext2 : ∃ tl, s4.trace
          = (sendCommand .data
              (email.envelope.forward_path.foldl (fun st a => sendCommand (.rcpt a) st)
                (sendCommand (.mail (MailCommand.new email.envelope.reverse_path (mailOptions t)))
                  s))).trace ++ tl := by
        have := drain_extends (email.envelope.forward_path.length + 2)
          (sendCommand .data
            (email.envelope.forward_path.foldl (fun st a => sendCommand (.rcpt a) st)
              (sendCommand (.mail (MailCommand.new email.envelope.reverse_path (mailOptions t)))
                s)))
        rw [hd] at this
        exact this
      cases res with
      | error e =>
        simp only [hd]
        exact traceExtends_trans hext1 hext2
      | ok r =>
        simp only [hd]
        exact traceExtends_trans (traceExtends_trans hext1 hext2)
          (message_extends email.body s4)
    · unfold send
      rw [if_neg hp]
      rcases hm : command
          (.mail (MailCommand.new email.envelope.reverse_path (mailOptions t))) s
        with ⟨res, s1⟩
      have hext1 : ∃ tl, s1.trace
          = (sendCommand (.mail (MailCommand.new email.envelope.reverse_path (mailOptions t)))
              s).trace ++ tl := by
        obtain ⟨tl, h, _⟩ := command_trace_ext
          (.mail (MailCommand.new email.envelope.reverse_path (mailOptions t))) s
        rw [hm] at h
        dsimp only at h
        exact ⟨tl, by rw [h]; simp [sendCommand]⟩
      try simp only [hm]
      cases res with
      | error e => exact hext1
      | ok r =>
        rcases hr : rcptLoop email.envelope.forward_path s1 with ⟨res2, s2⟩
        have hext2 : ∃ tl, s2.trace = s1.trace ++ tl := by
          have := rcptLoop_trace_ext email.envelope.forward_path s1
          rw [hr] at this
          exact this
        try simp only [hr]
        cases res2 with
        | error e => exact traceExtends_trans hext1 hext2
        | ok u =>
          rcases hdc : command .data s2 with ⟨res3, s3⟩
          have hext3 : ∃ tl, s3.trace = s2.trace ++ tl := by
            have := command_extends .data s2
            rw [hdc] at this
            exact this
          try simp only [hdc]
          cases res3 with
          | error e => exact traceExtends_trans hext1 (traceExtends_trans hext2 hext3)
          | ok r3 =>
            exact traceExtends_trans hext1 (traceExtends_trans hext2
              (traceExtends_trans hext3 (message_extends email.body s3)))
  obtain ⟨tl, htl⟩ := key
  exact ⟨tl, by rw [htl]; simp [sendCommand]⟩

/-- Claim C8 (confirmed): every `send` writes as its first action the MAIL
command whose parameter list carries `BODY=8BITMIME` iff the server
advertised 8BITMIME, carries `SMTPUTF8` iff the server advertised SMTPUTF8
and the caller enabled UTF-8, and carries nothing else. -/
theorem c8_mail_parameters (t : SmtpTransport) (email : SendableEmail) (s : StreamState) :
    (∃ rest, ((send t email s).2).trace
      = s.trace ++ Event.wrote
          (.mail (MailCommand.new email.envelope.reverse_path (mailOptions t))) :: rest) ∧
    (MailParameter.body .eightBitMime ∈ mailOptions t
      ↔ t.server_info.supports_feature .eightBitMime = true) ∧
    (MailParameter.smtpUtfEight ∈ mailOptions t
      ↔ t.server_info.supports_feature .smtpUtfEight = true
          ∧ t.client_info.smtp_utf8 = true) ∧
    (∀ p ∈ mailOptions t,
      p = MailParameter.body .eightBitMime ∨ p = MailParameter.smtpUtfEight) := by
  refine ⟨send_writes_mail_first t email s, ?_, ?_, ?_⟩
  · cases h8 : t.server_info.supports_feature .eightBitMime <;>
      cases hU1 : t.server_info.supports_feature .smtpUtfEight <;>
        cases hU2 : t.client_info.smtp_utf8 <;>
          simp [mailOptions, h8, hU1, hU2]
  · cases h8 : t.server_info.supports_feature .eightBitMime <;>
      cases hU1 : t.server_info.supports_feature .smtpUtfEight <;>
        cases hU2 : t.client_info.smtp_utf8 <;>
          simp [mailOptions, h8, hU1, hU2]
  · cases h8 : t.server_info.supports_feature .eightBitMime <;>
      cases hU1 : t.server_info.supports_feature .smtpUtfEight <;>
        cases hU2 : t.client_info.smtp_utf8 <;>
          simp [mailOptions, h8, hU1, hU2]

/-- Claim C7 as amended: the transport keeps no `panicked` flag, so a
failure leaves no mark on the engine; whatever the history in the stream
state (including traces of earlier failed operations), `send` still begins
by writing the MAIL command — it never refuses with a `Client` error and
never withholds writes. -/
theorem c7_no_failure_latch_amended (t : SmtpTransport) (email : SendableEmail)
    (s : StreamState) :
    ∃ rest, ((send t email s).2).trace
      = s.trace ++ Event.wrote
          (.mail (MailCommand.new email.envelope.reverse_path (mailOptions t))) :: rest :=
  send_writes_mail_first t email s

/-- Claim C7 counterexample: after a send that failed with a 550 on MAIL,
a second send on the same engine writes commands again and succeeds (returns
`Ok`), instead of failing with a `Client` error without writing. -/
theorem c7_panicked_counterexample :
    (send ⟨⟨"srv", []⟩, ⟨false, true⟩⟩ ⟨⟨[⟨"b@y"⟩], some ⟨"a@x"⟩⟩, [104]⟩
        ⟨[⟨⟨.permanentNegativeCompletion, .mailSystem, 0⟩, ["no"]⟩,
          ⟨⟨.positiveCompletion, .mailSystem, 0⟩, ["ok"]⟩,
          ⟨⟨.positiveCompletion, .mailSystem, 0⟩, ["ok"]⟩,
          ⟨⟨.positiveIntermediate, .mailSystem, 4⟩, ["go"]⟩,
          ⟨⟨.positiveCompletion, .mailSystem, 0⟩, ["ok"]⟩], []⟩).1
      = .error (.permanent ⟨⟨.permanentNegativeCompletion, .mailSystem, 0⟩, ["no"]⟩) ∧
    (send ⟨⟨"srv", []⟩, ⟨false, true⟩⟩ ⟨⟨[⟨"b@y"⟩], some ⟨"a@x"⟩⟩, [104]⟩
        (send ⟨⟨"srv", []⟩, ⟨false, true⟩⟩ ⟨⟨[⟨"b@y"⟩], some ⟨"a@x"⟩⟩, [104]⟩
          ⟨[⟨⟨.permanentNegativeCompletion, .mailSystem, 0⟩, ["no"]⟩,
            ⟨⟨.positiveCompletion, .mailSystem, 0⟩, ["ok"]⟩,
            ⟨⟨.positiveCompletion, .mailSystem, 0⟩, ["ok"]⟩,
            ⟨⟨.positiveIntermediate, .mailSystem, 4⟩, ["go"]⟩,
            ⟨⟨.positiveCompletion, .mailSystem, 0⟩, ["ok"]⟩], []⟩).2).1
      = .ok ⟨⟨.positiveCompletion, .mailSystem, 0⟩, ["ok"]⟩ ∧
    ((send ⟨⟨"srv", []⟩, ⟨false, true⟩⟩ ⟨⟨[⟨"b@y"⟩], some ⟨"a@x"⟩⟩, [104]⟩
        (send ⟨⟨"srv", []⟩, ⟨false, true⟩⟩ ⟨⟨[⟨"b@y"⟩], some ⟨"a@x"⟩⟩, [104]⟩
          ⟨[⟨⟨.permanentNegativeCompletion, .mailSystem, 0⟩, ["no"]⟩,
            ⟨⟨.positiveCompletion, .mailSystem, 0⟩, ["ok"]⟩,
            ⟨⟨.positiveCompletion, .mailSystem, 0⟩, ["ok"]⟩,
            ⟨⟨.positiveIntermediate, .mailSystem, 4⟩, ["go"]⟩,
            ⟨⟨.positiveCompletion, .mailSystem, 0⟩, ["ok"]⟩], []⟩).2).2).trace
      ≠ ((send ⟨⟨"srv", []⟩, ⟨false, true⟩⟩ ⟨⟨[⟨"b@y"⟩], some ⟨"a@x"⟩⟩, [104]⟩
          ⟨[⟨⟨.permanentNegativeCompletion, .mailSystem, 0⟩, ["no"]⟩,
            ⟨⟨.positiveCompletion, .mailSystem, 0⟩, ["ok"]⟩,
            ⟨⟨.positiveCompletion, .mailSystem, 0⟩, ["ok"]⟩,
            ⟨⟨.positiveIntermediate, .mailSystem, 4⟩, ["go"]⟩,
            ⟨⟨.positiveCompletion, .mailSystem, 0⟩, ["ok"]⟩], []⟩).2).trace :=
  ⟨rfl, rfl, by decide⟩

/-- Claim C2 (confirmed): with PIPELINING advertised and enabled, and a
script whose first `n + 2` replies are all positive, `send` writes exactly
one MAIL, the `n` RCPTs in envelope order, and one DATA before any read,
then reads exactly those `n + 2` replies in order; everything that follows
(the data phase) writes no further command. -/
theorem c2_pipelined_window (t : SmtpTransport) (email : SendableEmail)
    (window after : List Response) (tr : List Event)
    (hp : t.server_info.supports_feature .pipelining = true)
    (hc : t.client_info.pipelining = true)
    (hlen : window.length = email.envelope.forward_path.length + 2)
    (hpos : ∀ r ∈ window, r.is_positive = true) :
    ∃ tail,
      ((send t email ⟨window ++ after, tr⟩).2).trace
        = tr ++ Event.wrote
              (.mail (MailCommand.new email.envelope.reverse_path (mailOptions t)))
            :: (email.envelope.forward_path.map (fun a => Event.wrote (.rcpt a))
              ++ [Event.wrote .data]
              ++ window.map Event.readReply
              ++ tail)
      ∧ ∀ e ∈ tail, ∀ c, e ≠ Event.wrote c := by
  have hcond : (t.server_info.supports_feature .pipelining
      && t.client_info.pipelining) = true := by
    simp [hp, hc]
  unfold send
  rw [if_pos hcond]
  have hstate : sendCommand .data
      (email.envelope.forward_path.foldl (fun st a => sendCommand (.rcpt a) st)
        (sendCommand (.mail (MailCommand.new email.envelope.reverse_path (mailOptions t)))
          ⟨window ++ after, tr⟩))
      = ⟨window ++ after,
          (tr ++ [Event.wrote
              (.mail (MailCommand.new email.envelope.reverse_path (mailOptions t)))]
            ++ email.envelope.forward_path.map (fun a => Event.wrote (.rcpt a)))
            ++ [Event.wrote .data]⟩ := by
    rw [foldl_sendRcpt]
    simp [sendCommand]
  rw [hstate]
  rw [show email.envelope.forward_path.length + 2 = window.length from hlen.symm]
  rw [drain_all_positive window after _ hpos]
  obtain ⟨tl, htl, hnw⟩ := message_trace_ext email.body
    ⟨after,
      ((tr ++ [Event.wrote
          (.mail (MailCommand.new email.envelope.reverse_path (mailOptions t)))]
        ++ email.envelope.forward_path.map (fun a => Event.wrote (.rcpt a)))
        ++ [Event.wrote .data]) ++ window.map Event.readReply⟩
  refine ⟨tl, ?_, hnw⟩
  dsimp only
  rw [htl]
  simp [List.append_assoc]

/-- Witness for claim C2 with one recipient and the window 250, 250, 354. -/
theorem c2_pipelined_window_witness :
    ∃ tail,
      ((send ⟨⟨"srv", [.pipelining]⟩, ⟨false, true⟩⟩
          ⟨⟨[⟨"b@y"⟩], some ⟨"a@x"⟩⟩, [104]⟩
          ⟨[⟨⟨.positiveCompletion, .mailSystem, 0⟩, ["ok"]⟩,
            ⟨⟨.positiveCompletion, .mailSystem, 0⟩, ["ok"]⟩,
            ⟨⟨.positiveIntermediate, .mailSystem, 4⟩, ["go"]⟩]
            ++ [⟨⟨.positiveCompletion, .mailSystem, 0⟩, ["ok"]⟩], []⟩).2).trace
        = [] ++ Event.wrote
              (.mail (MailCommand.new (some ⟨"a@x"⟩)
                (mailOptions ⟨⟨"srv", [.pipelining]⟩, ⟨false, true⟩⟩)))
            :: (([⟨"b@y"⟩] : List EmailAddress).map (fun a => Event.wrote (.rcpt a))
              ++ [Event.wrote .data]
              ++ ([⟨⟨.positiveCompletion, .mailSystem, 0⟩, ["ok"]⟩,
                  ⟨⟨.positiveCompletion, .mailSystem, 0⟩, ["ok"]⟩,
                  ⟨⟨.positiveIntermediate, .mailSystem, 4⟩, ["go"]⟩] :
                    List Response).map Event.readReply
              ++ tail)
      ∧ ∀ e ∈ tail, ∀ c, e ≠ Event.wrote c :=
  c2_pipelined_window ⟨⟨"srv", [.pipelining]⟩, ⟨false, true⟩⟩
    ⟨⟨[⟨"b@y"⟩], some ⟨"a@x"⟩⟩, [104]⟩
    [⟨⟨.positiveCompletion, .mailSystem, 0⟩, ["ok"]⟩,
      ⟨⟨.positiveCompletion, .mailSystem, 0⟩, ["ok"]⟩,
      ⟨⟨.positiveIntermediate, .mailSystem, 4⟩, ["go"]⟩]
    [⟨⟨.positiveCompletion, .mailSystem, 0⟩, ["ok"]⟩] []
    (by decide) (by decide) (by decide) (by decide)

/-- Claim C3 counterexample: pipelined send with one recipient and replies
250, 550, 354: the 550 on the second reply is surfaced immediately and the
third reply of the window is left unread on the stream. -/
theorem c3_drain_counterexample :
    (send ⟨⟨"srv", [.pipelining]⟩, ⟨false, true⟩⟩ ⟨⟨[⟨"b@y"⟩], some ⟨"a@x"⟩⟩, [104]⟩
        ⟨[⟨⟨.positiveCompletion, .mailSystem, 0⟩, ["ok"]⟩,
          ⟨⟨.permanentNegativeCompletion, .mailSystem, 0⟩, ["no"]⟩,
          ⟨⟨.positiveIntermediate, .mailSystem, 4⟩, ["go"]⟩], []⟩).1
      = .error (.permanent ⟨⟨.permanentNegativeCompletion, .mailSystem, 0⟩, ["no"]⟩) ∧
    ((send ⟨⟨"srv", [.pipelining]⟩, ⟨false, true⟩⟩ ⟨⟨[⟨"b@y"⟩], some ⟨"a@x"⟩⟩, [104]⟩
        ⟨[⟨⟨.positiveCompletion, .mailSystem, 0⟩, ["ok"]⟩,
          ⟨⟨.permanentNegativeCompletion, .mailSystem, 0⟩, ["no"]⟩,
          ⟨⟨.positiveIntermediate, .mailSystem, 4⟩, ["go"]⟩], []⟩).2).script
      = [⟨⟨.positiveIntermediate, .mailSystem, 4⟩, ["go"]⟩] :=
  ⟨rfl, rfl⟩

/-- Claim C3 as amended: in a pipelined send the engine aborts the drain at
the first non-positive reply: that reply's error is surfaced immediately
and the remaining replies of the window are left unread on the stream. -/
theorem c3_first_error_aborts_amended (t : SmtpTransport) (email : SendableEmail)
    (pre : List Response) (rbad : Response) (after : List Response) (tr : List Event)
    (hp : t.server_info.supports_feature .pipelining = true)
    (hc : t.client_info.pipelining = true)
    (hk : pre.length < email.envelope.forward_path.length + 2)
    (hpos : ∀ r ∈ pre, r.is_positive = true)
    (hneg : rbad.is_positive = false) :
    (send t email ⟨pre ++ rbad :: after, tr⟩).1 = .error rbad.toError ∧
    ((send t email ⟨pre ++ rbad :: after, tr⟩).2).script = after := by
  have hcond : (t.server_info.supports_feature .pipelining
      && t.client_info.pipelining) = true := by
    simp [hp, hc]
  unfold send
  rw [if_pos hcond]
  have hstate : sendCommand .data
      (email.envelope.forward_path.foldl (fun st a => sendCommand (.rcpt a) st)
        (sendCommand (.mail (MailCommand.new email.envelope.reverse_path (mailOptions t)))
          ⟨pre ++ rbad :: after, tr⟩))
      = ⟨pre ++ rbad :: after,
          (tr ++ [Event.wrote
              (.mail (MailCommand.new email.envelope.reverse_path (mailOptions t)))]
            ++ email.envelope.forward_path.map (fun a => Event.wrote (.rcpt a)))
            ++ [Event.wrote .data]⟩ := by
    rw [foldl_sendRcpt]
    simp [sendCommand]
  rw [hstate]
  rw [drain_first_failure pre (email.envelope.forward_path.length + 2) rbad after _
    hk hpos hneg]
  exact ⟨rfl, rfl⟩

/-- Witness for the amended claim C3 at the replies 250, 550, 354. -/
theorem c3_first_error_aborts_amended_witness :
    (send ⟨⟨"srv", [.pipelining]⟩, ⟨false, true⟩⟩ ⟨⟨[⟨"b@y"⟩], some ⟨"a@x"⟩⟩, [104]⟩
        ⟨[⟨⟨.positiveCompletion, .mailSystem, 0⟩, ["ok"]⟩]
          ++ ⟨⟨.permanentNegativeCompletion, .mailSystem, 0⟩, ["no"]⟩
          :: [⟨⟨.positiveIntermediate, .mailSystem, 4⟩, ["go"]⟩], []⟩).1
      = .error (Response.toError
          ⟨⟨.permanentNegativeCompletion, .mailSystem, 0⟩, ["no"]⟩) ∧
    ((send ⟨⟨"srv", [.pipelining]⟩, ⟨false, true⟩⟩ ⟨⟨[⟨"b@y"⟩], some ⟨"a@x"⟩⟩, [104]⟩
        ⟨[⟨⟨.positiveCompletion, .mailSystem, 0⟩, ["ok"]⟩]
          ++ ⟨⟨.permanentNegativeCompletion, .mailSystem, 0⟩, ["no"]⟩
          :: [⟨⟨.positiveIntermediate, .mailSystem, 4⟩, ["go"]⟩], []⟩).2).script
      = [⟨⟨.positiveIntermediate, .mailSystem, 4⟩, ["go"]⟩] :=
  c3_first_error_aborts_amended ⟨⟨"srv", [.pipelining]⟩, ⟨false, true⟩⟩
    ⟨⟨[⟨"b@y"⟩], some ⟨"a@x"⟩⟩, [104]⟩
    [⟨⟨.positiveCompletion, .mailSystem, 0⟩, ["ok"]⟩]
    ⟨⟨.permanentNegativeCompletion, .mailSystem, 0⟩, ["no"]⟩
    [⟨⟨.positiveIntermediate, .mailSystem, 4⟩, ["go"]⟩] []
    (by decide) (by decide) (by decide) (by decide) (by decide)

lemma is_positive_of_has_code_334 (r : Response) (h : r.has_code 334 = true) :
    r.is_positive = true := by
  rcases r with ⟨⟨sev, cat, det⟩, msg⟩
  have hd : (det : Nat) < 10 := det.isLt
  simp only [Response.has_code, Code.toNat, beq_iff_eq] at h
  cases sev with
  | positiveCompletion => simp [Response.is_positive]
  | positiveIntermediate => simp [Response.is_positive]
  | transientNegativeCompletion =>
    exfalso
    cases cat <;> simp [Severity.digit, Category.digit] at h <;> omega
  | permanentNegativeCompletion =>
    exfalso
    cases cat <;> simp [Severity.digit, Category.digit] at h <;> omega

/-- A reply is a usable LOGIN challenge when it has code 334 and
`AuthCommand::new_from_response` accepts it (its first word is valid base64
decoding to valid UTF-8). -/
def validLoginChallenge (credentials : Credentials) (r : Response) : Bool :=
  r.has_code 334 &&
    (match AuthCommand.new_from_response .login credentials r with
     | .ok _ => true
     | .error _ => false)

lemma validLoginChallenge_has334 {credentials : Credentials} {r : Response}
    (h : validLoginChallenge credentials r = true) : r.has_code 334 = true := by
  rcases Bool.and_eq_true .. |>.mp h with ⟨h1, _⟩
  exact h1

lemma validLoginChallenge_newOk {credentials : Credentials} {r : Response}
    (h : validLoginChallenge credentials r = true) :
    ∃ cmd, AuthCommand.new_from_response .login credentials r = .ok cmd := by
  rcases Bool.and_eq_true .. |>.mp h with ⟨_, h2⟩
  rcases hm : AuthCommand.new_from_response .login credentials r with e | cmd
  · rw [hm] at h2
    cases h2
  · exact ⟨cmd, rfl⟩

/-- Running the challenge loop through a block of valid 334 challenges
followed by a positive reply.  When the challenge count equals the fuel,
the loop still reads the positive reply but exits with counter 0; when the
final reply is not a 334, the loop returns it with the remaining fuel. -/
lemma authLoop_through_challenges (credentials : Credentials) :
    ∀ (cs : List Response) (fuel : Nat) (r : Response) (rest : List Response)
      (tr : List Event) (cur : Response) (script : List Response),
      (∀ x ∈ cs, validLoginChallenge credentials x = true) →
      r.is_positive = true →
      (cs.length = fuel ∨ r.has_code 334 = false) →
      cs.length ≤ fuel →
      cur :: script = cs ++ r :: rest →
      ∃ tr2, authLoop .login credentials fuel cur ⟨script, tr⟩
        = (.ok r, ⟨rest, tr2⟩, fuel - cs.length) := by
  intro cs
  induction cs with
  | nil =>
    intro fuel r rest tr cur script hcs hr hd hle heq
    rw [List.nil_append] at heq
    have hcur : cur = r := (List.cons.injEq .. |>.mp heq).1
    have hscript : script = rest := (List.cons.injEq .. |>.mp heq).2
    subst hscript
    rw [hcur]
    cases fuel with
    | zero => exact ⟨tr, by simp [authLoop]⟩
    | succ m =>
      have h334 : r.has_code 334 = false := by
        rcases hd with h | h
        · exact absurd h (by simp)
        · exact h
      exact ⟨tr, by simp [authLoop, h334]⟩
  | cons c cs ih =>
    intro fuel r rest tr cur script hcs hr hd hle heq
    rw [List.cons_append] at heq
    have hcur : cur = c := (List.cons.injEq .. |>.mp heq).1
    have hscript : script = cs ++ r :: rest := (List.cons.injEq .. |>.mp heq).2
    subst hscript
    rw [hcur]
    cases fuel with
    | zero => exact absurd hle (by simp)
    | succ m =>
      have hv := hcs c (List.mem_cons_self c cs)
      have hc334 : c.has_code 334 = true := validLoginChallenge_has334 hv
      obtain ⟨cmd, hcmd⟩ := validLoginChallenge_newOk hv
      have hstep : authLoop .login credentials (m + 1) c ⟨cs ++ r :: rest, tr⟩
          = (match command (.auth cmd) ⟨cs ++ r :: rest, tr⟩ with
             | (.error e, s2) => (.error e, s2, m)
             | (.ok r2, s2) => authLoop .login credentials m r2 s2) := by
        simp [authLoop, hc334, hcmd]
      cases cs with
      | nil =>
        have hcmdres : command (.auth cmd) ⟨[] ++ r :: rest, tr⟩
            = (.ok r, ⟨rest, tr ++ [.wrote (.auth cmd)] ++ [.readReply r]⟩) := by
          simp [command, sendCommand, readResponse, hr]
        have hd2 : ([] : List Response).length = m ∨ r.has_code 334 = false := by
          rcases hd with h | h
          · left
            simp at h ⊢
            omega
          · exact Or.inr h
        obtain ⟨tr2, h2⟩ := ih m r rest (tr ++ [.wrote (.auth cmd)] ++ [.readReply r]) r rest
          (by simp) hr hd2 (by simp) rfl
        exact ⟨tr2, by rw [hstep, hcmdres]; exact h2⟩
      | cons c2 cs2 =>
        have hv2 := hcs c2 (List.mem_cons_of_mem c (List.mem_cons_self c2 cs2))
        have hc2pos : c2.is_positive = true :=
          is_positive_of_has_code_334 c2 (validLoginChallenge_has334 hv2)
        have hcmdres : command (.auth cmd) ⟨(c2 :: cs2) ++ r :: rest, tr⟩
            = (.ok c2, ⟨cs2 ++ r :: rest,
                tr ++ [.wrote (.auth cmd)] ++ [.readReply c2]⟩) := by
          simp [command, sendCommand, readResponse, hc2pos]
        have hd2 : (c2 :: cs2).length = m ∨ r.has_code 334 = false := by
          rcases hd with h | h
          · left
            simp at h ⊢
            omega
          · exact Or.inr h
        obtain ⟨tr2, h2⟩ := ih m r rest
          (tr ++ [.wrote (.auth cmd)] ++ [.readReply c2]) c2 (cs2 ++ r :: rest)
          (fun x hx => hcs x (List.mem_cons_of_mem c hx)) hr hd2
          (by simp at hle ⊢; omega) rfl
        refine ⟨tr2, ?_⟩
        rw [hstep, hcmdres]
        simp only [List.length_cons, Nat.succ_sub_succ_eq_sub]
        exact h2

/-- Unfolding of `auth` for the LOGIN mechanism: the initial command is the
bare `AUTH LOGIN` (no initial response), then the 334 loop with counter
10. -/
lemma auth_login_unfold (credentials : Credentials) (s : StreamState) :
    auth .login credentials s
      = (match command (.auth ⟨.login, credentials, none, none⟩) s with
         | (.error e, s1) => (.error e, s1)
         | (.ok r, s1) =>
           match authLoop .login credentials 10 r s1 with
           | (.error e, s2, _) => (.error e, s2)
           | (.ok r2, s2, challenges) =>
             if challenges = 0 then
               (.error (.responseParsing "Unexpected number of challenges"), s2)
             else (.ok r2, s2)) := rfl

/-- Claim C4 as amended: while each reply is a 334 challenge the engine
sends the next response, but the counter tolerates at most 9 consecutive
334 replies before a positive outcome: with k ≤ 9 consecutive valid 334
challenges followed by a positive non-334 reply, `auth` succeeds and
returns that reply; after 10 consecutive 334 challenges the engine still
sends a 10th response and reads one more reply, but then fails with the
protocol error `Unexpected number of challenges` even when that reply is
positive. -/
theorem c4_auth_amended (credentials : Credentials) (cs : List Response) (r : Response)
    (rest : List Response) (tr : List Event)
    (hcs : ∀ x ∈ cs, validLoginChallenge credentials x = true)
    (hr : r.is_positive = true) :
    (cs.length ≤ 9 → r.has_code 334 = false →
      (auth .login credentials ⟨cs ++ r :: rest, tr⟩).1 = .ok r) ∧
    (cs.length = 10 →
      (auth .login credentials ⟨cs ++ r :: rest, tr⟩).1
        = .error (.responseParsing "Unexpected number of challenges")) := by
  constructor
  · intro hlen h334
    rw [auth_login_unfold]
    cases cs with
    | nil =>
      simp only [List.nil_append]
      have hcmd : command (.auth ⟨.login, credentials, none, none⟩)
          ⟨r :: rest, tr⟩
          = (.ok r, ⟨rest,
              tr ++ [.wrote (.auth ⟨.login, credentials, none, none⟩)]
                ++ [.readReply r]⟩) := by
        simp [command, sendCommand, readResponse, hr]
      obtain ⟨tr2, h2⟩ := authLoop_through_challenges credentials [] 10 r rest
        (tr ++ [.wrote (.auth ⟨.login, credentials, none, none⟩)] ++ [.readReply r])
        r rest (by simp) hr (Or.inr h334) (by simp) rfl
      rw [hcmd]
      dsimp only
      rw [h2]
      simp
    | cons c cs2 =>
      simp only [List.cons_append]
      have hv := hcs c (List.mem_cons_self c cs2)
      have hcpos : c.is_positive = true :=
        is_positive_of_has_code_334 c (validLoginChallenge_has334 hv)
      have hcmd : command (.auth ⟨.login, credentials, none, none⟩)
          ⟨c :: (cs2 ++ r :: rest), tr⟩
          = (.ok c, ⟨cs2 ++ r :: rest,
              tr ++ [.wrote (.auth ⟨.login, credentials, none, none⟩)]
                ++ [.readReply c]⟩) := by
        simp [command, sendCommand, readResponse, hcpos]
      obtain ⟨tr2, h2⟩ := authLoop_through_challenges credentials (c :: cs2) 10 r rest
        (tr ++ [.wrote (.auth ⟨.login, credentials, none, none⟩)] ++ [.readReply c])
        c (cs2 ++ r :: rest) hcs hr (Or.inr h334) (by simp at hlen ⊢; omega) rfl
      have hne : ¬(9 - cs2.length = 0) := by
        simp at hlen
        omega
      rw [hcmd]
      dsimp only
      rw [h2]
      simp [hne]
  · intro hlen
    rw [auth_login_unfold]
    cases cs with
    | nil => exact absurd hlen (by simp)
    | cons c cs2 =>
      simp only [List.cons_append]
      have hv := hcs c (List.mem_cons_self c cs2)
      have hcpos : c.is_positive = true :=
        is_positive_of_has_code_334 c (validLoginChallenge_has334 hv)
      have hcmd : command (.auth ⟨.login, credentials, none, none⟩)
          ⟨c :: (cs2 ++ r :: rest), tr⟩
          = (.ok c, ⟨cs2 ++ r :: rest,
              tr ++ [.wrote (.auth ⟨.login, credentials, none, none⟩)]
                ++ [.readReply c]⟩) := by
        simp [command, sendCommand, readResponse, hcpos]
      obtain ⟨tr2, h2⟩ := authLoop_through_challenges credentials (c :: cs2) 10 r rest
        (tr ++ [.wrote (.auth ⟨.login, credentials, none, none⟩)] ++ [.readReply c])
        c (cs2 ++ r :: rest) hcs hr (Or.inl hlen) (by omega) rfl
      rw [hcmd]
      dsimp only
      rw [h2]
      simp [hlen]

/-- Claim C4 counterexample: ten consecutive 334 challenges followed by a
positive 235 reply make `auth` fail with the protocol error, not succeed
with the 235 reply as the claim states. -/
theorem c4_ten_challenges_counterexample :
    (auth .login ⟨"user", "pass"⟩
        ⟨List.replicate 10
            ⟨⟨.positiveIntermediate, .unspecified3, 4⟩, ["VXNlcm5hbWU6"]⟩
          ++ [⟨⟨.positiveCompletion, .unspecified3, 5⟩, ["ok"]⟩], []⟩).1
      = .error (.responseParsing "Unexpected number of challenges") := rfl

/-- Witness for the amended claim C4: the LOGIN exchange of Scenario 5
(two 334 challenges, then 235) succeeds with the 235 reply. -/
theorem c4_auth_amended_witness :
    (auth .login ⟨"user", "pass"⟩
        ⟨[⟨⟨.positiveIntermediate, .unspecified3, 4⟩, ["VXNlcm5hbWU6"]⟩,
          ⟨⟨.positiveIntermediate, .unspecified3, 4⟩, ["UGFzc3dvcmQ6"]⟩]
          ++ ⟨⟨.positiveCompletion, .unspecified3, 5⟩, ["ok"]⟩ :: [], []⟩).1
      = .ok ⟨⟨.positiveCompletion, .unspecified3, 5⟩, ["ok"]⟩ :=
  (c4_auth_amended ⟨"user", "pass"⟩
    [⟨⟨.positiveIntermediate, .unspecified3, 4⟩, ["VXNlcm5hbWU6"]⟩,
      ⟨⟨.positiveIntermediate, .unspecified3, 4⟩, ["UGFzc3dvcmQ6"]⟩]
    ⟨⟨.positiveCompletion, .unspecified3, 5⟩, ["ok"]⟩ [] []
    (by decide) (by decide)).1 (by decide) (by decide)

end AsyncSmtp
